import Mathlib

set_option maxRecDepth 100000
set_option exponentiation.threshold 400

/-!
# Verification of the `triangulator` core (codec + validation + fan triangulation)

Shallow embedding of `src/triangulator/serialization.py` and
`src/triangulator/algorithm.py`.

Modelling conventions:
* A wire byte is a `Nat` kept `< 256` by construction; a buffer is a `List Nat`.
* A decoded point coordinate is represented by its IEEE-754 float32 bit
  pattern, a `Nat` `< 2 ^ 32` (the data model fixes coordinates at float32
  precision).  This represents the Python float (a float64 whose value is
  exactly the value of that float32 pattern) exactly, including infinities
  and NaNs.
* Python `float.__eq__` is modelled by `pyEqW` on patterns: NaN compares
  unequal to everything (itself included) and `+0.0 == -0.0`; every other
  float32 value has a unique bit pattern.
* The colinearity test's float64 arithmetic is modelled exactly: every
  Python float and every intermediate of the determinant is a dyadic
  rational `n / 2 ^ d`, and each multiplication, subtraction and addition
  rounds its exact result to 53 significant bits, nearest, ties to even
  (`fl64`); the float64 literal `1e-5` is the dyadic
  `0x14F8B588E368F1 / 2 ^ 69`.
* Python exceptions become an `Except` error value.  `struct.error` and
  `TypeError` raised while packing are caught by the source and re-raised as
  `SerializationError`; `OverflowError` (raised by CPython when a finite
  float64 is too large for the `f` format) is *not* caught by
  `except struct.error` and escapes, which the model records with the
  distinct constructor `PyError.overflow`.  Dynamic parts of wrapped
  message strings (the interpolated `{e}`) are abbreviated to a fixed
  descriptor; the claims under study depend on the error kind and on the
  statically written message parts only.
-/

namespace Triangulator

/-- A decoded point: pair of float32 bit patterns (source type `Point = tuple[float, float]`
restricted to the data model's 32-bit floating values). -/
abbrev Pt := Nat × Nat

/-- A triangle of Python integer indices (source type `Triangle = tuple[int, int, int]`). -/
abbrev TriangleI := Int × Int × Int

/-! ## Float32 bit-pattern helpers -/

/-- Exponent field of a float32 bit pattern. -/
def expF (w : Nat) : Nat := w / 2 ^ 23 % 2 ^ 8

/-- Mantissa field of a float32 bit pattern. -/
def manF (w : Nat) : Nat := w % 2 ^ 23

/-- Sign bit of a float32 bit pattern. -/
def signF (w : Nat) : Nat := w / 2 ^ 31 % 2

/-- The pattern denotes a NaN. -/
def isNanW (w : Nat) : Bool := expF w == 255 && manF w != 0

/-- The pattern denotes a finite value (not NaN, not an infinity). -/
def isFinW (w : Nat) : Bool := expF w != 255

/-- The pattern denotes `+0.0` or `-0.0`. -/
def isZeroW (w : Nat) : Bool := expF w == 0 && manF w == 0

/-- Python `==` on the float values of two float32 patterns: NaN is unequal to
everything, `+0.0 == -0.0`, and every other float32 value has a unique pattern. -/
def pyEqW (a b : Nat) : Bool :=
  if isNanW a || isNanW b then false
  else a == b || (isZeroW a && isZeroW b)

/-- Python `==` on point tuples (element-wise float equality). -/
def pyEqPt (p q : Pt) : Bool := pyEqW p.1 q.1 && pyEqW p.2 q.2

/-- Python `==` on lists of points (length plus element-wise tuple equality). -/
def pyEqPts : List Pt → List Pt → Bool
  | [], [] => true
  | p :: ps, q :: qs => pyEqPt p q && pyEqPts ps qs
  | _, _ => false

/-- The value of a finite float32 bit pattern, scaled by `2 ^ 149` to an
integer: a subnormal (`exp = 0`) is `±m · 2⁻¹⁴⁹`, a normal is
`±(2²³ + m) · 2^(exp - 150)`, so the scaled magnitudes are `m` and
`(2²³ + m) · 2^(exp - 1)`.  Only consulted under an `isFinW` guard; the
value on `exp = 255` patterns is irrelevant junk. -/
def w32ToZ (w : Nat) : ℤ :=
  let mag : ℤ :=
    if expF w = 0 then (manF w : ℤ)
    else (2 ^ 23 + manF w : ℤ) * 2 ^ (expF w - 1)
  if signF w = 1 then -mag else mag

/-- Exact rational value of a finite float32 bit pattern (subnormal or
normal): the scaled integer divided by `2 ^ 149`. -/
def w32ToQ (w : Nat) : ℚ := (w32ToZ w : ℚ) / 2 ^ 149

/-! ## Big-endian byte helpers (`struct` formats `>I` and `>f`) -/

/-- Big-endian 4-byte encoding of a 32-bit word (`struct.pack('>I', w)` /
`struct.pack('>f', v)` once `v` is reduced to its float32 pattern `w`). -/
def bytesOfW32 (w : Nat) : List Nat :=
  [w / 2 ^ 24 % 256, w / 2 ^ 16 % 256, w / 2 ^ 8 % 256, w % 256]

/-- Big-endian read of the first four bytes of a buffer
(`struct.unpack('>I', data[:4])`; junk on buffers shorter than 4, which every
use guards against). -/
def readW32 (l : List Nat) : Nat :=
  l.headD 0 * 2 ^ 24 + (l.drop 1).headD 0 * 2 ^ 16 +
    (l.drop 2).headD 0 * 2 ^ 8 + (l.drop 3).headD 0

/-- Wire bytes of one point (`struct.pack('>ff', x, y)`). -/
def pointBytes (p : Pt) : List Nat := bytesOfW32 p.1 ++ bytesOfW32 p.2

/-! ## Error model (`exceptions.py` and escaping built-in exceptions) -/

/-- Outcome classes of the embedded functions.  `serialization` and
`invalidPointSet` are the source's `SerializationError` / `InvalidPointSetError`;
`overflow` is a CPython `OverflowError` that escapes the source's
`except struct.error` handler uncaught. -/
inductive PyError
  | serialization (msg : String)
  | invalidPointSet (msg : String)
  | overflow (msg : String)
deriving DecidableEq, Repr

/-- `True` exactly on the `SerializationError` class. -/
def PyError.isSerialization : PyError → Prop
  | .serialization _ => True
  | _ => False

instance : DecidablePred PyError.isSerialization := by
  intro e; cases e <;> simp [PyError.isSerialization] <;> infer_instance

/-! ## Python float inputs to the encoder

`point_set_to_bytes` receives arbitrary Python objects as coordinates.  The
model classifies them by their behaviour in CPython's `PyFloat_Pack4`:

* `val w` — a float64 whose value is exactly the value of float32 pattern `w`
  (covers all finite float32-representable values, `±inf`, NaN); packs to the
  four bytes of `w`.
* `big q` — a finite float64 of rational value `q` whose magnitude exceeds the
  float32 range; `PyFloat_Pack4` raises
  `OverflowError("float too large to pack with f format")`, which is not a
  `struct.error`.
* `nonNum t` — an object that is not a number (tag distinguishes objects);
  `struct.pack` raises `struct.error("required argument is not a float")`.

Finite in-range float64 values that are not exactly float32-representable
round silently on packing; they are outside this model's input domain (the
data model of the spec fixes coordinates at float32 precision). -/
inductive PyVal
  | val (w : Nat)
  | big (q : ℚ)
  | nonNum (tag : Nat)
deriving DecidableEq, Repr

/-- Points as the encoder receives them: pairs of arbitrary coordinate objects. -/
abbrev PyPoint := PyVal × PyVal

/-- Failure classes of packing one value with format `f`. -/
inductive PackFail
  | overflowErr
  | structErr
deriving DecidableEq, Repr

/-- CPython `struct.pack('>f', v)` on the modelled value classes. -/
def pack4 : PyVal → Except PackFail (List Nat)
  | .val w => .ok (bytesOfW32 w)
  | .big _ => .error .overflowErr
  | .nonNum _ => .error .structErr

/-- Map a packing failure inside `point_set_to_bytes` to the escaping error:
`struct.error` is caught and wrapped into `SerializationError`,
`OverflowError` escapes uncaught. -/
def pointPackErr : PackFail → PyError
  | .structErr => .serialization "Failed to serialize points: required argument is not a float"
  | .overflowErr => .overflow "float too large to pack with f format"

/-- The packing loop `for x, y in points: payload.extend(struct.pack('>ff', x, y))`,
first failure wins, in order `x` then `y`. -/
def packPoints : List PyPoint → Except PyError (List Nat)
  | [] => .ok []
  | (x, y) :: rest =>
    match pack4 x with
    | .error f => .error (pointPackErr f)
    | .ok bx =>
      match pack4 y with
      | .error f => .error (pointPackErr f)
      | .ok by_ =>
        match packPoints rest with
        | .error e => .error e
        | .ok brest => .ok (bx ++ by_ ++ brest)

/-- `point_set_to_bytes` (serialization.py lines 18–26): pack the `>I` count
header (a `struct.error`, wrapped into `SerializationError`, if the length
does not fit in 32 bits), then each point in order. -/
def point_set_to_bytes (points : List PyPoint) : Except PyError (List Nat) :=
  if 2 ^ 32 ≤ points.length then
    .error (.serialization "Failed to serialize points: argument out of range")
  else
    match packPoints points with
    | .error e => .error e
    | .ok body => .ok (bytesOfW32 points.length ++ body)

/-- Inject a float32-pattern point into the encoder's input domain. -/
def injPt (p : Pt) : PyPoint := (.val p.1, .val p.2)

/-- `point_set_to_bytes` restricted to float32-pattern points (the domain of
the round-trip properties). -/
def encodePts (ps : List Pt) : Except PyError (List Nat) :=
  point_set_to_bytes (ps.map injPt)

/-! ## Point-set decoding -/

/-- The decode loop of `bytes_to_point_set`: read `count` points of 8 bytes
each from `rest` (`struct.unpack('>ff', ...)` per point). -/
def readPoints : Nat → List Nat → List Pt
  | 0, _ => []
  | k + 1, rest => (readW32 rest, readW32 (rest.drop 4)) :: readPoints k (rest.drop 8)

/-- `bytes_to_point_set` (serialization.py lines 29–48): 4-byte header check,
declared-size check (strict on the low side, trailing bytes tolerated), then
the fixed-count decode loop. -/
def bytes_to_point_set (data : List Nat) : Except PyError (List Pt) :=
  if data.length < 4 then .error (.serialization "Payload too short to contain header")
  else
    let count := readW32 data
    if data.length < 4 + count * 8 then .error (.serialization "Payload smaller than expected")
    else .ok (readPoints count (data.drop 4))

/-! ## Mesh encoding (`triangles_to_bytes`)

Triangle indices arrive as arbitrary Python objects; the model classifies them
as Python ints or non-numeric objects (on which `idx > max_index` raises
`TypeError`, caught by the source's `except (struct.error, TypeError, ValueError)`
and wrapped into `SerializationError`). -/

/-- A triangle index as received by the encoder. -/
inductive PyIdx
  | int (n : Int)
  | nonNum (tag : Nat)
deriving DecidableEq, Repr

/-- Triangles as the encoder receives them. -/
abbrev PyTri := PyIdx × PyIdx × PyIdx

/-- `idx > max_index or idx < 0`: `Except.error` models the `TypeError` raised
when comparing a non-numeric object with an int. -/
def idxBad (maxIdx : Int) : PyIdx → Except Unit Bool
  | .int n => .ok (n > maxIdx || n < 0)
  | .nonNum _ => .error ()

/-- Failure classes of the bounds scan. -/
inductive ScanFail
  | oob
  | typeErr
deriving DecidableEq, Repr

/-- `any(idx > max_index or idx < 0 for idx in tri)` with Python's left-to-right
short-circuit evaluation. -/
def triBad (maxIdx : Int) (t : PyTri) : Except Unit Bool :=
  match idxBad maxIdx t.1 with
  | .error e => .error e
  | .ok true => .ok true
  | .ok false =>
    match idxBad maxIdx t.2.1 with
    | .error e => .error e
    | .ok true => .ok true
    | .ok false => idxBad maxIdx t.2.2

/-- The bounds loop of `triangles_to_bytes` (serialization.py lines 59–62):
first violation wins, a `True` check raises `SerializationError("Triangle
index out of bounds")` directly, a `TypeError` aborts the scan. -/
def scanTris (maxIdx : Int) : List PyTri → Except ScanFail Unit
  | [] => .ok ()
  | t :: rest =>
    match triBad maxIdx t with
    | .error _ => .error .typeErr
    | .ok true => .error .oob
    | .ok false => scanTris maxIdx rest

/-- `struct.pack('>I', n)` on a Python int index: `struct.error` unless
`0 ≤ n < 2^32` (provably unreachable after a passed bounds scan). -/
def packIdx : PyIdx → Except PackFail (List Nat)
  | .int n => if 0 ≤ n ∧ n < 2 ^ 32 then .ok (bytesOfW32 n.toNat) else .error .structErr
  | .nonNum _ => .error .structErr

/-- The triangle packing loop `struct.pack('>III', a, b, c)` per triangle. -/
def packTris : List PyTri → Except PackFail (List Nat)
  | [] => .ok []
  | (a, b, c) :: rest =>
    match packIdx a with
    | .error f => .error f
    | .ok ba =>
      match packIdx b with
      | .error f => .error f
      | .ok bb =>
        match packIdx c with
        | .error f => .error f
        | .ok bc =>
          match packTris rest with
          | .error f => .error f
          | .ok brest => .ok (ba ++ bb ++ bc ++ brest)

/-- `triangles_to_bytes` (serialization.py lines 51–72): encode the points
(a raised `SerializationError` or `OverflowError` propagates unchanged), scan
every index against `max_index = len(points) - 1` uniformly for both signs,
then pack the `>I` triangle-count header and the `>III` index triples.
`struct.error`/`TypeError`/`ValueError` from the scan or the packing are
wrapped into `SerializationError`. -/
def triangles_to_bytes (points : List PyPoint) (triangles : List PyTri) :
    Except PyError (List Nat) :=
  match point_set_to_bytes points with
  | .error e => .error e
  | .ok pbytes =>
    match scanTris ((points.length : Int) - 1) triangles with
    | .error .oob => .error (.serialization "Triangle index out of bounds")
    | .error .typeErr =>
      .error (.serialization "Failed to serialize triangles: unsupported comparison")
    | .ok _ =>
      if 2 ^ 32 ≤ triangles.length then
        .error (.serialization "Failed to serialize triangles: argument out of range")
      else
        match packTris triangles with
        | .error _ => .error (.serialization "Failed to serialize triangles: bad index value")
        | .ok tbytes => .ok (pbytes ++ bytesOfW32 triangles.length ++ tbytes)

/-- Inject an int triangle into the encoder's input domain. -/
def injTri (t : TriangleI) : PyTri := (.int t.1, .int t.2.1, .int t.2.2)

/-- `triangles_to_bytes` restricted to float32-pattern points and int triangles
(the domain of the mesh round-trip property). -/
def encodeMeshI (ps : List Pt) (ts : List TriangleI) : Except PyError (List Nat) :=
  triangles_to_bytes (ps.map injPt) (ts.map injTri)

/-! ## Mesh decoding (`bytes_to_triangles`) -/

/-- The triangle decode loop: read `count` triples of 12 bytes each
(`struct.unpack('>III', ...)`; decoded Python ints). -/
def readTris : Nat → List Nat → List TriangleI
  | 0, _ => []
  | k + 1, rest =>
    ((readW32 rest : Int), (readW32 (rest.drop 4) : Int), (readW32 (rest.drop 8) : Int)) ::
      readTris k (rest.drop 12)

/-- `bytes_to_triangles` (serialization.py lines 75–111): header check, point
section length check, re-decoding of the point section through
`bytes_to_point_set`, triangle-count header check, and the *exact* total size
check `len(data) == points_end + 4 + triangle_count * 12`; no validation of
decoded indices against the decoded point count. -/
def bytes_to_triangles (data : List Nat) : Except PyError (List Pt × List TriangleI) :=
  if data.length < 4 then .error (.serialization "Payload too short")
  else
    let point_count := readW32 data
    let points_end := 4 + point_count * 8
    if data.length < points_end then .error (.serialization "Payload too short for points")
    else
      match bytes_to_point_set (data.take points_end) with
      | .error e => .error e
      | .ok points =>
        if data.length < points_end + 4 then
          .error (.serialization "Missing triangle count header")
        else
          let triangle_count := readW32 (data.drop points_end)
          if data.length ≠ points_end + 4 + triangle_count * 12 then
            .error (.serialization "Payload size mismatch for triangles section")
          else .ok (points, readTris triangle_count (data.drop (points_end + 4)))

/-! ## Validation and fan triangulation (`algorithm.py`) -/

/-- The duplicate detection `len(set(points)) != n`: some point compares
Python-equal to a later occurrence.  (Set membership uses value equality;
NaN-bearing tuples of distinct objects never compare equal and are never
deduplicated.) -/
def hasDuplicate : List Pt → Bool
  | [] => false
  | p :: rest => rest.any (pyEqPt p) || hasDuplicate rest

/-- The *exact* (real-arithmetic) determinant of `_is_colinear`, on the
values scaled by `2 ^ 149` (so this integer is `2 ^ 298` times the exact real
determinant).  This is not what the program computes — the program evaluates
in float64 (`val64` below) — it serves to state the exact cross-product test
that claim C5 asserts. -/
def crossZ (p1 p2 p3 : Pt) : ℤ :=
  w32ToZ p1.1 * (w32ToZ p2.2 - w32ToZ p3.2) + w32ToZ p2.1 * (w32ToZ p3.2 - w32ToZ p1.2) +
    w32ToZ p3.1 * (w32ToZ p1.2 - w32ToZ p2.2)

/-! ### IEEE-754 binary64 evaluation

Every Python float and every intermediate of `_is_colinear` on float32 inputs
is a dyadic rational; each arithmetic operation rounds its exact result to
binary64.  On this computation's domain the nonzero intermediates lie between
`2 ^ (-298)` and about `2 ^ 533` in magnitude, so binary64 rounding never
overflows and never enters the subnormal range, and rounding to 53
significant bits (nearest, ties to even) is the exact float64 semantics. -/

/-- A dyadic rational `n / 2 ^ d`. -/
abbrev Dy := ℤ × ℕ

/-- Fuelled base-2 logarithm: `2 ^ result ≤ n < 2 ^ (result + 1)` for
`0 < n < 2 ^ fuel`.  Structural recursion on the fuel so the kernel can
evaluate it; the fuel `2000` used in `fl64` exceeds the bit length of every
integer this development ever rounds (all below `2 ^ 600`). -/
def log2Fuel : Nat → Nat → Nat
  | 0, _ => 0
  | f + 1, n => if n < 2 then 0 else log2Fuel f (n / 2) + 1

/-- Round a dyadic to IEEE-754 binary64: the nearest value with at most 53
significant bits, ties to even (overflow and subnormals are unreachable on
this development's domain, see above). -/
def fl64 : Dy → Dy
  | (n, d) =>
    let a := n.natAbs
    if a = 0 then (0, 0)
    else
      let b := log2Fuel 2000 a
      if b ≤ 52 then (n, d)
      else
        let r := b - 52
        let m := a / 2 ^ r
        let rem := a % 2 ^ r
        let half := 2 ^ (r - 1)
        let m' := if half < rem ∨ (rem = half ∧ m % 2 = 1) then m + 1 else m
        let n' : ℤ := if n < 0 then -(m' : ℤ) else (m' : ℤ)
        if r ≤ d then (n', d - r) else (n' * 2 ^ (r - d), 0)

/-- Python float64 subtraction: exact difference, then binary64 rounding. -/
def dySub (x y : Dy) : Dy :=
  let D := max x.2 y.2
  fl64 (x.1 * 2 ^ (D - x.2) - y.1 * 2 ^ (D - y.2), D)

/-- Python float64 addition: exact sum, then binary64 rounding. -/
def dyAdd (x y : Dy) : Dy :=
  let D := max x.2 y.2
  fl64 (x.1 * 2 ^ (D - x.2) + y.1 * 2 ^ (D - y.2), D)

/-- Python float64 multiplication: exact product, then binary64 rounding. -/
def dyMul (x y : Dy) : Dy := fl64 (x.1 * y.1, x.2 + y.2)

/-- A finite float32 input as the dyadic `w32ToZ w / 2 ^ 149`. -/
def dyOfW (w : Nat) : Dy := (w32ToZ w, 149)

/-- Numerator of the float64 literal `1e-5`: the IEEE-754 double nearest to
`10⁻⁵` is exactly `0x14F8B588E368F1 / 2 ^ 69`. -/
def eps64Num : ℕ := 0x14F8B588E368F1

/-- `abs(val) < 1e-5` on a float64 value `n / 2 ^ d`:
`|n| / 2 ^ d < eps64Num / 2 ^ 69`.  (No float64 lies in
`[10⁻⁵, 0x14F8B588E368F1 / 2 ^ 69)`, so on float64 values this agrees with
`< 10⁻⁵`; the stored literal is what the program compares against.) -/
def dyAbsLtEps (x : Dy) : Prop := x.1.natAbs * 2 ^ 69 < eps64Num * 2 ^ x.2

instance (x : Dy) : Decidable (dyAbsLtEps x) := by
  unfold dyAbsLtEps; infer_instance

/-- The float64 evaluation of `_is_colinear`'s determinant in the code's
order: `p1.x*(p2.y - p3.y) + p2.x*(p3.y - p1.y) + p3.x*(p1.y - p2.y)`, each
operation rounding to binary64 and the outer sum associating left. -/
def val64 (p1 p2 p3 : Pt) : Dy :=
  dyAdd
    (dyAdd (dyMul (dyOfW p1.1) (dySub (dyOfW p2.2) (dyOfW p3.2)))
      (dyMul (dyOfW p2.1) (dySub (dyOfW p3.2) (dyOfW p1.2))))
    (dyMul (dyOfW p3.1) (dySub (dyOfW p1.2) (dyOfW p2.2)))

/-- `_is_colinear` (algorithm.py lines 9–11):
`val = p1.x*(p2.y - p3.y) + p2.x*(p3.y - p1.y) + p3.x*(p1.y - p2.y)`,
`abs(val) < 1e-5`, with `val` evaluated in float64 (`val64`) and compared
against the stored float64 literal `1e-5`.
If any coordinate is non-finite (±inf or NaN), float64 evaluation makes `val`
non-finite (every term is a product with an infinite or NaN factor, and
infinite terms of opposite signs sum to NaN), so `abs(val) < 1e-5` is `False`;
the model bakes that in with the finiteness guard. -/
def isColinearB (p1 p2 p3 : Pt) : Bool :=
  if isFinW p1.1 && isFinW p1.2 && isFinW p2.1 && isFinW p2.2 &&
      isFinW p3.1 && isFinW p3.2 then
    decide (dyAbsLtEps (val64 p1 p2 p3))
  else false

/-- The fan loop `for i in range(1, n - 1): triangles.append((0, i, i + 1))`. -/
def fanTriangles (n : Nat) : List TriangleI :=
  (List.range' 1 (n - 2)).map (fun i : Nat => ((0 : Int), (i : Int), (i : Int) + 1))

theorem fanTriangles_length (n : Nat) : (fanTriangles n).length = n - 2 := by
  rw [fanTriangles, List.length_map, List.length_range']

/-- `triangulate` on an already-decoded point sequence (algorithm.py lines
21–43): the three validation checks in their fixed source order — count,
duplicates, colinearity of every point from index 2 onward with points 0 and
1 — then the fan loop. -/
def triangulatePts (ps : List Pt) : Except PyError (List TriangleI) :=
  match ps with
  | p0 :: p1 :: p2 :: rest =>
    if hasDuplicate ps then .error (.invalidPointSet "Duplicate points detected.")
    else if (p2 :: rest).all (isColinearB p0 p1) then
      .error (.invalidPointSet "Points are colinear.")
    else .ok (fanTriangles ps.length)
  | _ => .error (.invalidPointSet "At least 3 points are required.")

/-- The argument of `triangulate`: a decoded point sequence or a raw buffer. -/
inductive TriInput
  | pts (ps : List Pt)
  | raw (b : List Nat)

/-- `triangulate` (algorithm.py lines 14–43): a `bytes` argument is first
decoded with `bytes_to_point_set` (whose exception propagates unchanged). -/
def triangulate : TriInput → Except PyError (List TriangleI)
  | .pts ps => triangulatePts ps
  | .raw b =>
    match bytes_to_point_set b with
    | .ok ws => triangulatePts ws
    | .error e => .error e

/-! ## Auxiliary wire-layout definitions used by the statements -/

/-- Concatenated wire bytes of a point list (the body that
`point_set_to_bytes` appends after the count header). -/
def ptsBody : List Pt → List Nat
  | [] => []
  | p :: rest => pointBytes p ++ ptsBody rest

/-- Wire bytes of one triangle (`struct.pack('>III', a, b, c)` for in-range
indices). -/
def triBytes (t : TriangleI) : List Nat :=
  bytesOfW32 t.1.toNat ++ bytesOfW32 t.2.1.toNat ++ bytesOfW32 t.2.2.toNat

/-- Concatenated wire bytes of a triangle list. -/
def triBody : List TriangleI → List Nat
  | [] => []
  | t :: rest => triBytes t ++ triBody rest

/-- All patterns of a point list are genuine 32-bit words. -/
def ValidPts (ps : List Pt) : Prop := ∀ p ∈ ps, p.1 < 2 ^ 32 ∧ p.2 < 2 ^ 32

/-- No coordinate of the list is a NaN. -/
def NoNaN (ps : List Pt) : Prop := ∀ p ∈ ps, isNanW p.1 = false ∧ isNanW p.2 = false

/-- All indices of a triangle list fit the `>I` wire format. -/
def ValidTris (ts : List TriangleI) : Prop :=
  ∀ t ∈ ts, (0 ≤ t.1 ∧ t.1 < 2 ^ 32) ∧ (0 ≤ t.2.1 ∧ t.2.1 < 2 ^ 32) ∧
    (0 ≤ t.2.2 ∧ t.2.2 < 2 ^ 32)

instance (ps : List Pt) : Decidable (ValidPts ps) := by
  unfold ValidPts; infer_instance

instance (ps : List Pt) : Decidable (NoNaN ps) := by
  unfold NoNaN; infer_instance

instance (ts : List TriangleI) : Decidable (ValidTris ts) := by
  unfold ValidTris; infer_instance

/-! ## Byte-level lemmas -/

theorem bytesOfW32_length (w : Nat) : (bytesOfW32 w).length = 4 := rfl

theorem readW32_bytesOfW32_append (w : Nat) (t : List Nat) (h : w < 2 ^ 32) :
    readW32 (bytesOfW32 w ++ t) = w := by
  simp only [bytesOfW32, readW32, List.cons_append, List.nil_append, List.headD_cons,
    List.drop_succ_cons, List.drop_zero]
  omega

theorem readW32_append (l t : List Nat) (h : 4 ≤ l.length) :
    readW32 (l ++ t) = readW32 l := by
  rcases l with _ | ⟨a, _ | ⟨b, _ | ⟨c, _ | ⟨d, r⟩⟩⟩⟩ <;> simp_all [readW32]

theorem drop4_bytesOfW32_append (w : Nat) (t : List Nat) :
    (bytesOfW32 w ++ t).drop 4 = t := rfl

theorem ptsBody_length (ps : List Pt) : (ptsBody ps).length = 8 * ps.length := by
  induction ps with
  | nil => rfl
  | cons p rest ih =>
    simp [ptsBody, pointBytes, List.length_append, ih, List.length_cons,
      bytesOfW32_length]
    omega

theorem triBody_length (ts : List TriangleI) : (triBody ts).length = 12 * ts.length := by
  induction ts with
  | nil => rfl
  | cons t rest ih =>
    simp [triBody, triBytes, List.length_append, ih, List.length_cons,
      bytesOfW32_length]
    omega

theorem readPoints_ptsBody (ps : List Pt) (t : List Nat) (hv : ValidPts ps) :
    readPoints ps.length (ptsBody ps ++ t) = ps := by
  induction ps with
  | nil => rfl
  | cons p rest ih =>
    have hp := hv p (by simp)
    have hrest : ValidPts rest := fun q hq => hv q (by simp [hq])
    simp only [List.length_cons, readPoints, ptsBody, pointBytes, List.append_assoc]
    rw [readW32_bytesOfW32_append _ _ hp.1, drop4_bytesOfW32_append,
      readW32_bytesOfW32_append _ _ hp.2]
    have hdrop : ((bytesOfW32 p.1 ++ (bytesOfW32 p.2 ++ (ptsBody rest ++ t))).drop 8)
        = ptsBody rest ++ t := rfl
    rw [hdrop, ih hrest]

theorem readTris_triBody (ts : List TriangleI) (u : List Nat) (hv : ValidTris ts) :
    readTris ts.length (triBody ts ++ u) = ts := by
  induction ts with
  | nil => rfl
  | cons t rest ih =>
    have ht := hv t (by simp)
    have hrest : ValidTris rest := fun q hq => hv q (by simp [hq])
    obtain ⟨⟨ha0, ha⟩, ⟨hb0, hb⟩, ⟨hc0, hc⟩⟩ := ht
    simp only [List.length_cons, readTris, triBody, triBytes, List.append_assoc]
    rw [readW32_bytesOfW32_append _ _ (by omega), drop4_bytesOfW32_append,
      readW32_bytesOfW32_append _ _ (by omega)]
    have hdrop8 : ((bytesOfW32 t.1.toNat ++ (bytesOfW32 t.2.1.toNat ++
        (bytesOfW32 t.2.2.toNat ++ (triBody rest ++ u)))).drop 8)
        = bytesOfW32 t.2.2.toNat ++ (triBody rest ++ u) := rfl
    rw [hdrop8, readW32_bytesOfW32_append _ _ (by omega)]
    have hdrop12 : ((bytesOfW32 t.1.toNat ++ (bytesOfW32 t.2.1.toNat ++
        (bytesOfW32 t.2.2.toNat ++ (triBody rest ++ u)))).drop 12)
        = triBody rest ++ u := rfl
    rw [hdrop12, ih hrest]
    have e1 : ((t.1.toNat : Int), (t.2.1.toNat : Int), (t.2.2.toNat : Int)) = t := by
      have : (t.1.toNat : Int) = t.1 := Int.toNat_of_nonneg ha0
      have : (t.2.1.toNat : Int) = t.2.1 := Int.toNat_of_nonneg hb0
      have : (t.2.2.toNat : Int) = t.2.2 := Int.toNat_of_nonneg hc0
      simp_all
    rw [e1]

/-! ## Encoder composition lemmas -/

theorem packPoints_inj (ps : List Pt) : packPoints (ps.map injPt) = .ok (ptsBody ps) := by
  induction ps with
  | nil => rfl
  | cons p rest ih =>
    simp only [List.map_cons, packPoints, injPt, pack4, ih, ptsBody, pointBytes,
      List.append_assoc]

theorem encodePts_eq (ps : List Pt) (hl : ps.length < 2 ^ 32) :
    encodePts ps = .ok (bytesOfW32 ps.length ++ ptsBody ps) := by
  simp only [encodePts, point_set_to_bytes, List.length_map, packPoints_inj]
  rw [if_neg (by omega)]

theorem decode_encodePts (ps : List Pt) (t : List Nat) (hv : ValidPts ps)
    (hl : ps.length < 2 ^ 32) :
    bytes_to_point_set (bytesOfW32 ps.length ++ (ptsBody ps ++ t)) = .ok ps := by
  have hlen : (bytesOfW32 ps.length ++ (ptsBody ps ++ t)).length
      = 4 + (8 * ps.length + t.length) := by
    simp [List.length_append, bytesOfW32_length, ptsBody_length]
  simp only [bytes_to_point_set]
  rw [if_neg (by omega), readW32_bytesOfW32_append _ _ hl]
  rw [if_neg (by omega), drop4_bytesOfW32_append, readPoints_ptsBody _ _ hv]

theorem packTris_inj (ts : List TriangleI) (hv : ValidTris ts) :
    packTris (ts.map injTri) = .ok (triBody ts) := by
  induction ts with
  | nil => rfl
  | cons t rest ih =>
    have ht := hv t (by simp)
    have hrest : ValidTris rest := fun q hq => hv q (by simp [hq])
    obtain ⟨⟨ha0, ha⟩, ⟨hb0, hb⟩, ⟨hc0, hc⟩⟩ := ht
    simp only [List.map_cons, injTri, packTris, packIdx, if_pos (And.intro ha0 ha),
      if_pos (And.intro hb0 hb), if_pos (And.intro hc0 hc), ih hrest, triBody, triBytes,
      List.append_assoc]

/-! ## Bounds-scan lemmas -/

/-- All three indices of an int triangle lie in `[0, maxIdx]`. -/
def TriInBounds (maxIdx : Int) (t : TriangleI) : Prop :=
  (0 ≤ t.1 ∧ t.1 ≤ maxIdx) ∧ (0 ≤ t.2.1 ∧ t.2.1 ≤ maxIdx) ∧ (0 ≤ t.2.2 ∧ t.2.2 ≤ maxIdx)

instance (maxIdx : Int) (t : TriangleI) : Decidable (TriInBounds maxIdx t) := by
  unfold TriInBounds; infer_instance

theorem triBad_inj (m : Int) (a b c : Int) :
    triBad m (injTri (a, b, c)) = .ok (decide (¬ TriInBounds m (a, b, c))) := by
  simp only [injTri, triBad, idxBad]
  cases h1 : (decide (a > m) || decide (a < 0)) <;>
    cases h2 : (decide (b > m) || decide (b < 0)) <;>
      cases h3 : (decide (c > m) || decide (c < 0)) <;>
        simp_all [TriInBounds, not_lt] <;> omega

theorem scanTris_inj_ok (maxIdx : Int) (ts : List TriangleI)
    (hb : ∀ t ∈ ts, TriInBounds maxIdx t) :
    scanTris maxIdx (ts.map injTri) = .ok () := by
  induction ts with
  | nil => rfl
  | cons t rest ih =>
    obtain ⟨a, b, c⟩ := t
    have ht := hb (a, b, c) (by simp)
    simp only [List.map_cons, scanTris, triBad_inj, decide_eq_false (not_not_intro ht)]
    exact ih (fun q hq => hb q (by simp [hq]))

theorem scanTris_inj_oob (maxIdx : Int) (ts : List TriangleI)
    (hb : ¬ ∀ t ∈ ts, TriInBounds maxIdx t) :
    scanTris maxIdx (ts.map injTri) = .error .oob := by
  induction ts with
  | nil => exact absurd (by simp) hb
  | cons t rest ih =>
    obtain ⟨a, b, c⟩ := t
    by_cases ht : TriInBounds maxIdx (a, b, c)
    · have hrest : ¬ ∀ q ∈ rest, TriInBounds maxIdx q := by
        intro hall
        exact hb (by
          intro q hq
          rcases List.mem_cons.mp hq with rfl | hq'
          · exact ht
          · exact hall q hq')
      simp only [List.map_cons, scanTris, triBad_inj, decide_eq_false (not_not_intro ht)]
      exact ih hrest
    · simp only [List.map_cons, scanTris, triBad_inj, decide_eq_true ht]

/-- A triangle index that is not a Python int. -/
def PyIdx.isNonNum : PyIdx → Bool
  | .int _ => false
  | .nonNum _ => true

/-- Some index of some triangle in the list is a non-numeric object. -/
def HasNonNum (ts : List PyTri) : Prop :=
  ∃ t ∈ ts, t.1.isNonNum = true ∨ t.2.1.isNonNum = true ∨ t.2.2.isNonNum = true

theorem idxBad_ok_int (m : Int) (i : PyIdx) (b : Bool) (h : idxBad m i = .ok b) :
    i.isNonNum = false := by
  cases i with
  | int n => rfl
  | nonNum g => simp [idxBad] at h

theorem triBad_ok_false_ints (m : Int) (t : PyTri) (h : triBad m t = .ok false) :
    t.1.isNonNum = false ∧ t.2.1.isNonNum = false ∧ t.2.2.isNonNum = false := by
  obtain ⟨a, b, c⟩ := t
  simp only [triBad] at h
  rcases ha : idxBad m a with u | ba
  · rw [ha] at h; simp at h
  · rw [ha] at h
    cases ba with
    | true => simp at h
    | false =>
      rcases hb : idxBad m b with u | bb
      · rw [hb] at h; simp at h
      · rw [hb] at h
        cases bb with
        | true => simp at h
        | false => exact ⟨idxBad_ok_int m a _ ha, idxBad_ok_int m b _ hb, idxBad_ok_int m c _ h⟩

theorem scanTris_ok_no_nonNum (maxIdx : Int) (ts : List PyTri)
    (h : scanTris maxIdx ts = .ok ()) : ¬ HasNonNum ts := by
  induction ts with
  | nil => rintro ⟨t, ht, _⟩; simp at ht
  | cons t rest ih =>
    simp only [scanTris] at h
    rcases hbad : triBad maxIdx t with e | b
    · rw [hbad] at h; cases h
    · rw [hbad] at h
      cases b with
      | true => cases h
      | false =>
        rintro ⟨q, hq, hnn⟩
        rcases List.mem_cons.mp hq with rfl | hq'
        · obtain ⟨h1, h2, h3⟩ := triBad_ok_false_ints maxIdx q hbad
          rcases hnn with hn | hn | hn <;> simp_all
        · exact ih h ⟨q, hq', hnn⟩

/-! ## Mesh composition lemmas -/

theorem validTris_of_inBounds (ps : List Pt) (ts : List TriangleI)
    (hl : ps.length < 2 ^ 32)
    (hb : ∀ t ∈ ts, TriInBounds ((ps.length : Int) - 1) t) : ValidTris ts := by
  intro t ht
  obtain ⟨⟨ha0, ha⟩, ⟨hb0, hb'⟩, ⟨hc0, hc⟩⟩ := hb t ht
  refine ⟨⟨ha0, ?_⟩, ⟨hb0, ?_⟩, ⟨hc0, ?_⟩⟩ <;> omega

theorem encodeMeshI_eq (ps : List Pt) (ts : List TriangleI)
    (hp : ps.length < 2 ^ 32) (ht : ts.length < 2 ^ 32)
    (hb : ∀ t ∈ ts, TriInBounds ((ps.length : Int) - 1) t) :
    encodeMeshI ps ts =
      .ok (bytesOfW32 ps.length ++ ptsBody ps ++ bytesOfW32 ts.length ++ triBody ts) := by
  have henc : point_set_to_bytes (ps.map injPt) = .ok (bytesOfW32 ps.length ++ ptsBody ps) :=
    encodePts_eq ps hp
  simp only [encodeMeshI, triangles_to_bytes, henc, List.length_map]
  rw [scanTris_inj_ok _ _ hb, if_neg (by omega),
    packTris_inj ts (validTris_of_inBounds ps ts hp hb)]

/-- Decoding a buffer laid out as `[count][points][triCount][triangles]` of
exact total length returns the encoded content verbatim; no index validation
happens on decode. -/
theorem decodeMesh_concat (ps : List Pt) (ts : List TriangleI)
    (hv : ValidPts ps) (hp : ps.length < 2 ^ 32) (ht : ts.length < 2 ^ 32)
    (hvt : ValidTris ts) :
    bytes_to_triangles
      (bytesOfW32 ps.length ++ ptsBody ps ++ bytesOfW32 ts.length ++ triBody ts) =
      .ok (ps, ts) := by
  set H1 := bytesOfW32 ps.length with hH1
  set B1 := ptsBody ps with hB1
  set H2 := bytesOfW32 ts.length with hH2
  set B2 := triBody ts with hB2
  have lH1 : H1.length = 4 := bytesOfW32_length _
  have lB1 : B1.length = 8 * ps.length := ptsBody_length _
  have lH2 : H2.length = 4 := bytesOfW32_length _
  have lB2 : B2.length = 12 * ts.length := triBody_length _
  have hgrp : H1 ++ B1 ++ H2 ++ B2 = (H1 ++ B1) ++ (H2 ++ B2) := by
    simp [List.append_assoc]
  have hlen : (H1 ++ B1 ++ H2 ++ B2).length = 4 + 8 * ps.length + 4 + 12 * ts.length := by
    simp [List.length_append, lH1, lB1, lH2, lB2]; omega
  have hread1 : readW32 (H1 ++ B1 ++ H2 ++ B2) = ps.length := by
    have : H1 ++ B1 ++ H2 ++ B2 = H1 ++ (B1 ++ (H2 ++ B2)) := by simp [List.append_assoc]
    rw [this, hH1, readW32_bytesOfW32_append _ _ hp]
  have htake : (H1 ++ B1 ++ H2 ++ B2).take (4 + ps.length * 8) = H1 ++ B1 := by
    rw [hgrp]; exact List.take_left' (by simp [List.length_append, lH1, lB1]; omega)
  have hdrop : (H1 ++ B1 ++ H2 ++ B2).drop (4 + ps.length * 8) = H2 ++ B2 := by
    rw [hgrp]; exact List.drop_left' (by simp [List.length_append, lH1, lB1]; omega)
  have hread2 : readW32 (H2 ++ B2) = ts.length := by
    rw [hH2, readW32_bytesOfW32_append _ _ ht]
  have hdrop2 : (H1 ++ B1 ++ H2 ++ B2).drop (4 + ps.length * 8 + 4) = B2 := by
    have : H1 ++ B1 ++ H2 ++ B2 = ((H1 ++ B1) ++ H2) ++ B2 := by simp [List.append_assoc]
    rw [this]
    exact List.drop_left' (by simp [List.length_append, lH1, lB1, lH2]; omega)
  have hdecp : bytes_to_point_set (H1 ++ B1) = .ok ps := by
    have := decode_encodePts ps [] hv hp
    simpa [hH1, hB1] using this
  simp only [bytes_to_triangles, hlen, hread1, htake, hdrop, hdrop2, hdecp, hread2]
  rw [if_neg (by omega), if_neg (by omega), if_neg (by omega), if_neg (by omega)]
  have : readTris ts.length B2 = ts := by
    have := readTris_triBody ts [] hvt
    simpa [hB2] using this
  rw [this]

/-! ## Python-equality and duplicate-check lemmas -/

theorem pyEqW_refl (w : Nat) (h : isNanW w = false) : pyEqW w w = true := by
  simp [pyEqW, h]

theorem pyEqPts_refl (ps : List Pt) (h : NoNaN ps) : pyEqPts ps ps = true := by
  induction ps with
  | nil => rfl
  | cons p rest ih =>
    have hp := h p (by simp)
    have hrest : NoNaN rest := fun q hq => h q (by simp [hq])
    simp [pyEqPts, pyEqPt, pyEqW_refl _ hp.1, pyEqW_refl _ hp.2, ih hrest]

theorem hasDuplicate_eq_false_iff (ps : List Pt) :
    hasDuplicate ps = false ↔ ps.Pairwise (fun a b => pyEqPt a b = false) := by
  induction ps with
  | nil => simp [hasDuplicate]
  | cons p rest ih =>
    simp only [hasDuplicate, Bool.or_eq_false_iff, List.pairwise_cons, ih,
      List.any_eq_false]
    constructor
    · rintro ⟨h1, h2⟩
      exact ⟨fun b hb => by simpa using h1 b hb, h2⟩
    · rintro ⟨h1, h2⟩
      exact ⟨fun b hb => by simpa using h1 b hb, h2⟩

/-! ## Decoder analysis lemmas -/

theorem bytes_to_point_set_error_isSer (d : List Nat) (e : PyError)
    (h : bytes_to_point_set d = .error e) : e.isSerialization := by
  simp only [bytes_to_point_set] at h
  split at h
  · cases h; trivial
  · split at h
    · cases h; trivial
    · cases h

theorem bytes_to_triangles_error_isSer (d : List Nat) (e : PyError)
    (h : bytes_to_triangles d = .error e) : e.isSerialization := by
  simp only [bytes_to_triangles] at h
  split at h
  · cases h; trivial
  · split at h
    · cases h; trivial
    · split at h
      · cases h
        exact bytes_to_point_set_error_isSer _ _ (by assumption)
      · split at h
        · cases h; trivial
        · split at h
          · cases h; trivial
          · cases h

theorem readW32_take (d : List Nat) (n : Nat) (hn : 4 ≤ n) :
    readW32 (d.take n) = readW32 d := by
  rcases d with _ | ⟨a, _ | ⟨b, _ | ⟨c, _ | ⟨e, r⟩⟩⟩⟩ <;>
    rcases n with _ | _ | _ | _ | m <;> simp_all [readW32]

theorem drop_append_le (l t : List Nat) (n : Nat) (h : n ≤ l.length) :
    (l ++ t).drop n = l.drop n ++ t := by
  rw [List.drop_append_eq_append_drop, Nat.sub_eq_zero_of_le h, List.drop_zero]

theorem readPoints_prefix (n : Nat) (l t : List Nat) (h : 8 * n ≤ l.length) :
    readPoints n (l ++ t) = readPoints n l := by
  induction n generalizing l with
  | zero => rfl
  | succ k ih =>
    simp only [readPoints]
    rw [readW32_append _ _ (by omega), drop_append_le _ _ 4 (by omega),
      readW32_append _ _ (by simp [List.length_drop]; omega),
      drop_append_le _ _ 8 (by omega), ih _ (by simp [List.length_drop]; omega)]

/-- Success analysis of `bytes_to_point_set`: with the header present and the
declared size available, decoding succeeds with the loop's result. -/
theorem bytes_to_point_set_ok (d : List Nat) (h4 : 4 ≤ d.length)
    (hsz : 4 + readW32 d * 8 ≤ d.length) :
    bytes_to_point_set d = .ok (readPoints (readW32 d) (d.drop 4)) := by
  simp only [bytes_to_point_set]
  rw [if_neg (by omega), if_neg (by omega)]

/-! ## Triangulation control-flow lemmas -/

theorem triangulatePts_short (ps : List Pt) (h : ps.length < 3) :
    triangulatePts ps = .error (.invalidPointSet "At least 3 points are required.") := by
  rcases ps with _ | ⟨a, _ | ⟨b, _ | ⟨c, r⟩⟩⟩
  · rfl
  · rfl
  · rfl
  · exact absurd h (by simp only [List.length_cons]; omega)

theorem triangulatePts_ok_fan (ps : List Pt) (ts : List TriangleI)
    (h : triangulatePts ps = .ok ts) : ts = fanTriangles ps.length := by
  rcases ps with _ | ⟨a, _ | ⟨b, _ | ⟨c, r⟩⟩⟩ <;> simp only [triangulatePts] at h
  · cases h
  · cases h
  · cases h
  · split at h
    · cases h
    · split at h
      · cases h
      · cases h; rfl

theorem triangulatePts_dup (ps : List Pt) (h3 : 3 ≤ ps.length)
    (hd : hasDuplicate ps = true) :
    triangulatePts ps = .error (.invalidPointSet "Duplicate points detected.") := by
  rcases ps with _ | ⟨a, _ | ⟨b, _ | ⟨c, r⟩⟩⟩ <;> simp_all [triangulatePts]

theorem triangulatePts_colinear (p0 p1 p2 : Pt) (rest : List Pt)
    (hd : hasDuplicate (p0 :: p1 :: p2 :: rest) = false)
    (hc : ((p2 :: rest).all (isColinearB p0 p1)) = true) :
    triangulatePts (p0 :: p1 :: p2 :: rest) =
      .error (.invalidPointSet "Points are colinear.") := by
  simp [triangulatePts, hd, hc]

theorem triangulatePts_colinear_iff (p0 p1 p2 : Pt) (rest : List Pt)
    (hd : hasDuplicate (p0 :: p1 :: p2 :: rest) = false) :
    triangulatePts (p0 :: p1 :: p2 :: rest) =
        .error (.invalidPointSet "Points are colinear.") ↔
      ((p2 :: rest).all (isColinearB p0 p1)) = true := by
  constructor
  · intro h
    by_contra hc
    simp only [triangulatePts, hd, Bool.false_eq_true, if_false] at h
    rw [if_neg (by simpa using hc)] at h
    cases h
  · exact triangulatePts_colinear p0 p1 p2 rest hd

/-- The scaled integer determinant casts back to the rational determinant of
the code's formula, divided by `2 ^ 298`. -/
theorem crossZ_cast (p1 p2 p3 : Pt) :
    ((crossZ p1 p2 p3 : ℤ) : ℚ) / 2 ^ 298 =
      w32ToQ p1.1 * (w32ToQ p2.2 - w32ToQ p3.2) + w32ToQ p2.1 * (w32ToQ p3.2 - w32ToQ p1.2) +
        w32ToQ p3.1 * (w32ToQ p1.2 - w32ToQ p2.2) := by
  rw [div_eq_iff (by positivity : ((2 : ℚ) ^ 298) ≠ 0)]
  simp only [crossZ, w32ToQ]
  push_cast
  ring

/-- The *exact* cross-product test `|·| < 1e-5` restated as an integer
comparison on the scaled determinant (used to evaluate the exact test at
concrete inputs). -/
theorem abs_lt_iff_scaled (p1 p2 p3 : Pt) :
    (|w32ToQ p1.1 * (w32ToQ p2.2 - w32ToQ p3.2) + w32ToQ p2.1 * (w32ToQ p3.2 - w32ToQ p1.2) +
        w32ToQ p3.1 * (w32ToQ p1.2 - w32ToQ p2.2)| < 1 / 100000) ↔
      (crossZ p1 p2 p3).natAbs * 100000 < 2 ^ 298 := by
  rw [← crossZ_cast, abs_div]
  have h298 : |(2 : ℚ) ^ 298| = 2 ^ 298 := abs_of_pos (by positivity)
  have habs : |((crossZ p1 p2 p3 : ℤ) : ℚ)| = (((crossZ p1 p2 p3).natAbs : ℕ) : ℚ) := by
    rw [← Int.cast_abs, Int.abs_eq_natAbs, Int.cast_natCast]
  rw [h298, habs, div_lt_div_iff₀ (by positivity) (by norm_num), one_mul]
  norm_cast

/-- The code's colinearity determinant equals the spec's cross-product form
`(p1.x-p0.x)*(pi.y-p0.y) - (pi.x-p0.x)*(p1.y-p0.y)` (an algebraic identity). -/
theorem cross_code_eq_spec (x0 y0 x1 y1 x2 y2 : ℚ) :
    x0 * (y1 - y2) + x1 * (y2 - y0) + x2 * (y0 - y1) =
      (x1 - x0) * (y2 - y0) - (x2 - x0) * (y1 - y0) := by ring

/-- Under the finiteness guard, the colinearity check reduces to the float64
comparison. -/
theorem isColinearB_fin (p0 p1 p : Pt)
    (h0x : isFinW p0.1 = true) (h0y : isFinW p0.2 = true)
    (h1x : isFinW p1.1 = true) (h1y : isFinW p1.2 = true)
    (hx : isFinW p.1 = true) (hy : isFinW p.2 = true) :
    isColinearB p0 p1 p = decide (dyAbsLtEps (val64 p0 p1 p)) := by
  simp only [isColinearB, h0x, h0y, h1x, h1y, hx, hy, Bool.and_self, if_true,
    Bool.and_true, Bool.true_and]

/-- `bytes_to_triangles` succeeds exactly on buffers whose total length equals
`points_end + 4 + triangle_count * 12` (headers readable, point section
available). -/
theorem bytes_to_triangles_ok_iff (d : List Nat) :
    (∃ pr, bytes_to_triangles d = .ok pr) ↔
      (4 ≤ d.length ∧ 4 + readW32 d * 8 ≤ d.length ∧
       4 + readW32 d * 8 + 4 ≤ d.length ∧
       d.length = 4 + readW32 d * 8 + 4 + readW32 (d.drop (4 + readW32 d * 8)) * 12) := by
  constructor
  · rintro ⟨pr, h⟩
    simp only [bytes_to_triangles] at h
    split at h
    · cases h
    · split at h
      · cases h
      · split at h
        · cases h
        · split at h
          · cases h
          · split at h
            · cases h
            · refine ⟨by omega, by omega, by omega, by omega⟩
  · rintro ⟨h4, hpe, hpe4, heq⟩
    have htk : (d.take (4 + readW32 d * 8)).length = 4 + readW32 d * 8 := by
      simp [List.length_take]; omega
    have hdec : bytes_to_point_set (d.take (4 + readW32 d * 8)) =
        .ok (readPoints (readW32 d) ((d.take (4 + readW32 d * 8)).drop 4)) := by
      have hr : readW32 (d.take (4 + readW32 d * 8)) = readW32 d :=
        readW32_take d _ (by omega)
      have := bytes_to_point_set_ok (d.take (4 + readW32 d * 8))
        (by omega) (by rw [hr]; omega)
      rwa [hr] at this
    simp only [bytes_to_triangles]
    rw [if_neg (by omega), if_neg (by omega), hdec]
    show ∃ pr,
      (if d.length < 4 + readW32 d * 8 + 4 then
          (Except.error (PyError.serialization "Missing triangle count header") :
            Except PyError (List Pt × List TriangleI))
        else if d.length ≠ 4 + readW32 d * 8 + 4 + readW32 (d.drop (4 + readW32 d * 8)) * 12 then
          Except.error (PyError.serialization "Payload size mismatch for triangles section")
        else .ok (readPoints (readW32 d) ((d.take (4 + readW32 d * 8)).drop 4),
          readTris (readW32 (d.drop (4 + readW32 d * 8))) (d.drop (4 + readW32 d * 8 + 4)))) =
        .ok pr
    rw [if_neg (by omega), if_neg (not_ne_iff.mpr heq)]
    exact ⟨_, rfl⟩

/-- Decidable equality on `Except` outcomes, for evaluating concrete runs. -/
instance {ε α : Type _} [DecidableEq ε] [DecidableEq α] : DecidableEq (Except ε α) :=
  fun x y =>
  match x, y with
  | .error a, .error b =>
    if h : a = b then isTrue (congrArg Except.error h)
    else isFalse (fun hh => h (Except.error.inj hh))
  | .ok a, .ok b =>
    if h : a = b then isTrue (congrArg Except.ok h)
    else isFalse (fun hh => h (Except.ok.inj hh))
  | .error _, .ok _ => isFalse (fun hh => Except.noConfusion hh)
  | .ok _, .error _ => isFalse (fun hh => Except.noConfusion hh)

/-! ## Claim theorems -/

/-- C1: for every point sequence of length `N ≥ 3` that passes validation,
`triangulate` returns exactly the `N - 2` triangles `(0, i, i+1)` for `i` from
`1` to `N - 2`, in increasing `i` order with indices in that exact order; in
particular `triangulate([(0,0),(1,0),(1,1),(0,1)]) = [(0,1,2),(0,2,3)]`
(coordinates given as their float32 bit patterns). -/
theorem C1_fan_triangulation :
    (∀ (ps : List Pt) (ts : List TriangleI), 3 ≤ ps.length →
      triangulate (.pts ps) = .ok ts →
        ts = (List.range' 1 (ps.length - 2)).map
          (fun i : Nat => ((0 : Int), (i : Int), (i : Int) + 1)) ∧
        ts.length = ps.length - 2) ∧
    triangulate (.pts [((0, 0) : Pt), (0x3F800000, 0), (0x3F800000, 0x3F800000),
      (0, 0x3F800000)]) = .ok [(0, 1, 2), (0, 2, 3)] := by
  constructor
  · intro ps ts _ hok
    have hts := triangulatePts_ok_fan ps ts hok
    refine ⟨hts, ?_⟩
    rw [hts, fanTriangles_length]
  · decide

/-- C1 witness: the square instantiates the universal part. -/
theorem C1_fan_triangulation_witness :
    ([((0, 1, 2) : TriangleI), (0, 2, 3)] =
      (List.range' 1 (([((0, 0) : Pt), (0x3F800000, 0), (0x3F800000, 0x3F800000),
        (0, 0x3F800000)]).length - 2)).map
          (fun i : Nat => ((0 : Int), (i : Int), (i : Int) + 1))) ∧
    ([((0, 1, 2) : TriangleI), (0, 2, 3)]).length =
      ([((0, 0) : Pt), (0x3F800000, 0), (0x3F800000, 0x3F800000),
        (0, 0x3F800000)]).length - 2 :=
  C1_fan_triangulation.1 _ _ (by decide) (by decide)

/-- C4 counterexample: on the two-element duplicate input the error message is
the source's `"At least 3 points are required."`, not the claim's literal
`"too few points"`. -/
theorem C4_message_counterexample :
    triangulate (.pts [((0, 0) : Pt), (0, 0)]) =
      .error (.invalidPointSet "At least 3 points are required.") ∧
    triangulate (.pts [((0, 0) : Pt), (0, 0)]) ≠
      .error (.invalidPointSet "too few points") := by
  exact ⟨rfl, by decide⟩

/-- C4 (amended): `triangulate` checks its preconditions in the fixed order
count, duplicates, colinearity, raising `InvalidPointSet` errors with the
distinct messages `"At least 3 points are required."`,
`"Duplicate points detected."` and `"Points are colinear."`; the first
violation wins, so any input with fewer than 3 points — duplicates or not —
fails with the count message. -/
theorem C4_validation_order :
    (∀ ps : List Pt, ps.length < 3 →
      triangulate (.pts ps) = .error (.invalidPointSet "At least 3 points are required.")) ∧
    (∀ ps : List Pt, 3 ≤ ps.length → hasDuplicate ps = true →
      triangulate (.pts ps) = .error (.invalidPointSet "Duplicate points detected.")) ∧
    (∀ (p0 p1 p2 : Pt) (rest : List Pt),
      hasDuplicate (p0 :: p1 :: p2 :: rest) = false →
      ((p2 :: rest).all (isColinearB p0 p1)) = true →
      triangulate (.pts (p0 :: p1 :: p2 :: rest)) =
        .error (.invalidPointSet "Points are colinear.")) ∧
    (("At least 3 points are required." ≠ "Duplicate points detected.") ∧
     ("At least 3 points are required." ≠ "Points are colinear.") ∧
     ("Duplicate points detected." ≠ "Points are colinear.")) := by
  refine ⟨fun ps h => triangulatePts_short ps h,
    fun ps h3 hd => triangulatePts_dup ps h3 hd,
    fun p0 p1 p2 rest hd hc => triangulatePts_colinear p0 p1 p2 rest hd hc,
    by decide, by decide, by decide⟩

/-- C4 witness: a short duplicate input gets the count error; a genuine
duplicate input of length 3 gets the duplicate error. -/
theorem C4_validation_order_witness :
    triangulate (.pts [((0, 0) : Pt), (0, 0)]) =
      .error (.invalidPointSet "At least 3 points are required.") ∧
    triangulate (.pts [((0, 0) : Pt), (0, 0), (0x3F800000, 0)]) =
      .error (.invalidPointSet "Duplicate points detected.") :=
  ⟨C4_validation_order.1 _ (by decide), C4_validation_order.2.1 _ (by decide) (by decide)⟩

/-- C5 counterexample: the truly colinear, pairwise-distinct float32 points
`p0 = (1, k)`, `p1 = (2⁶⁰, k·2⁶⁰)`, `p2 = (2⁻⁶⁰, k·2⁻⁶⁰)` with `k = 1 + 2⁻²³`
(patterns below) satisfy the claim's exact test — `cross(p0, p1, p2) = 0` —
so the claimed iff demands the colinearity error, yet the program's float64
evaluation of the determinant gives `val ≈ -1.0000001` and `triangulate`
returns the fan list instead of raising. -/
theorem C5_exact_cross_counterexample :
    ([((0x3F800000, 0x3F800001) : Pt), (0x5D800000, 0x5D800001),
        (0x21800000, 0x21800001)]).Pairwise (fun a b => pyEqPt a b = false) ∧
    (∀ p ∈ [((0x3F800000, 0x3F800001) : Pt), (0x5D800000, 0x5D800001),
        (0x21800000, 0x21800001)], isFinW p.1 = true ∧ isFinW p.2 = true) ∧
    (∀ p ∈ [((0x21800000, 0x21800001) : Pt)],
      |(w32ToQ 0x5D800000 - w32ToQ 0x3F800000) * (w32ToQ p.2 - w32ToQ 0x3F800001) -
        (w32ToQ p.1 - w32ToQ 0x3F800000) * (w32ToQ 0x5D800001 - w32ToQ 0x3F800001)| <
        1 / 100000) ∧
    triangulate (.pts [((0x3F800000, 0x3F800001) : Pt), (0x5D800000, 0x5D800001),
        (0x21800000, 0x21800001)]) = .ok [(0, 1, 2)] := by
  refine ⟨by decide, by decide, ?_, by decide⟩
  intro p hp
  rcases List.mem_singleton.mp hp with rfl
  rw [← cross_code_eq_spec]
  exact (abs_lt_iff_scaled (0x3F800000, 0x3F800001) (0x5D800000, 0x5D800001)
    (0x21800000, 0x21800001)).mpr (by decide)

/-- C5 (amended): for a sequence of `N ≥ 3` pairwise non-equal points of
finite float32 values, `triangulate` raises the colinearity `InvalidPointSet`
error iff every point from index 2 onward satisfies the *float64-evaluated*
test `|val| < 1e-5`, where `val` is the code's determinant
`p0.x*(p1.y - pi.y) + p1.x*(pi.y - p0.y) + pi.x*(p0.y - p1.y)` with every
operation rounded to binary64 and compared against the stored float64 literal
(this can disagree with the exact cross-product test, which the program does
not compute); in particular `[(0,0),(0.5,0),(1,0),(1.5,0)]` raises it. -/
theorem C5_colinearity_iff :
    (∀ (p0 p1 p2 : Pt) (rest : List Pt),
      (p0 :: p1 :: p2 :: rest).Pairwise (fun a b => pyEqPt a b = false) →
      (∀ p ∈ p0 :: p1 :: p2 :: rest, isFinW p.1 = true ∧ isFinW p.2 = true) →
      (triangulate (.pts (p0 :: p1 :: p2 :: rest)) =
          .error (.invalidPointSet "Points are colinear.") ↔
        ∀ p ∈ p2 :: rest, dyAbsLtEps (val64 p0 p1 p))) ∧
    triangulate (.pts [((0, 0) : Pt), (0x3F000000, 0), (0x3F800000, 0),
      (0x3FC00000, 0)]) = .error (.invalidPointSet "Points are colinear.") := by
  constructor
  · intro p0 p1 p2 rest hpair hfin
    have hd : hasDuplicate (p0 :: p1 :: p2 :: rest) = false :=
      (hasDuplicate_eq_false_iff _).mpr hpair
    have h0 := hfin p0 (by simp)
    have h1 := hfin p1 (by simp)
    rw [show triangulate (.pts (p0 :: p1 :: p2 :: rest)) =
        triangulatePts (p0 :: p1 :: p2 :: rest) from rfl,
      triangulatePts_colinear_iff p0 p1 p2 rest hd, List.all_eq_true]
    constructor
    · intro h p hp
      have hf := hfin p (List.mem_cons_of_mem _ (List.mem_cons_of_mem _ hp))
      have := h p hp
      rw [isColinearB_fin p0 p1 p h0.1 h0.2 h1.1 h1.2 hf.1 hf.2] at this
      exact of_decide_eq_true this
    · intro h p hp
      have hf := hfin p (List.mem_cons_of_mem _ (List.mem_cons_of_mem _ hp))
      rw [isColinearB_fin p0 p1 p h0.1 h0.2 h1.1 h1.2 hf.1 hf.2]
      exact decide_eq_true (h p hp)
  · decide

/-- C5 witness: the horizontal four-point scenario instantiates the iff. -/
theorem C5_colinearity_iff_witness :
    triangulate (.pts [((0, 0) : Pt), (0x3F000000, 0), (0x3F800000, 0),
        (0x3FC00000, 0)]) = .error (.invalidPointSet "Points are colinear.") ↔
      ∀ p ∈ [((0x3F800000, 0) : Pt), (0x3FC00000, 0)],
        dyAbsLtEps (val64 (0, 0) (0x3F000000, 0) p) :=
  C5_colinearity_iff.1 (0, 0) (0x3F000000, 0) (0x3F800000, 0) [(0x3FC00000, 0)]
    (by decide) (by decide)

/-- C9: `triangulate` accepts a raw byte buffer; on buffers that decode it
agrees with triangulating the decoded point list, and on buffers that fail to
decode it raises the decoder's own Serialization error. -/
theorem C9_bytes_input_refinement :
    (∀ (b : List Nat) (ps : List Pt), bytes_to_point_set b = .ok ps →
      triangulate (.raw b) = triangulate (.pts ps)) ∧
    (∀ (b : List Nat) (e : PyError), bytes_to_point_set b = .error e →
      triangulate (.raw b) = .error e ∧ e.isSerialization) := by
  constructor
  · intro b ps h
    simp [triangulate, h]
  · intro b e h
    exact ⟨by simp [triangulate, h], bytes_to_point_set_error_isSer b e h⟩

/-- C9 witness: the empty point-set buffer decodes and routes to the decoded
path; a two-byte buffer fails decoding and surfaces the Serialization error. -/
theorem C9_bytes_input_refinement_witness :
    (triangulate (.raw [0, 0, 0, 0]) = triangulate (.pts ([] : List Pt))) ∧
    (triangulate (.raw [1, 2]) =
        .error (.serialization "Payload too short to contain header") ∧
      (PyError.serialization "Payload too short to contain header").isSerialization) :=
  ⟨C9_bytes_input_refinement.1 [0, 0, 0, 0] [] (by decide),
   C9_bytes_input_refinement.2 [1, 2] _ (by decide)⟩

/-- The coordinate object is an exactly-representable float (`val`). -/
def PyVal.isVal : PyVal → Bool
  | .val _ => true
  | _ => false

/-- The coordinate object is non-numeric. -/
def PyVal.isNonNum : PyVal → Bool
  | .nonNum _ => true
  | _ => false

theorem packPoints_allVal (ps : List PyPoint)
    (hv : ∀ p ∈ ps, p.1.isVal = true ∧ p.2.isVal = true) :
    ∃ bs, packPoints ps = .ok bs := by
  induction ps with
  | nil => exact ⟨[], rfl⟩
  | cons p rest ih =>
    obtain ⟨x, y⟩ := p
    have hp := hv (x, y) (by simp)
    obtain ⟨bs, hbs⟩ := ih (fun q hq => hv q (by simp [hq]))
    rcases x with wx | qx | tx <;> rcases y with wy | qy | ty <;>
      simp_all [PyVal.isVal, packPoints, pack4]

theorem packPoints_ser_nonNum (ps : List PyPoint) (m : String)
    (h : packPoints ps = .error (.serialization m)) :
    ∃ p ∈ ps, p.1.isNonNum = true ∨ p.2.isNonNum = true := by
  induction ps with
  | nil => cases h
  | cons p rest ih =>
    obtain ⟨x, y⟩ := p
    rcases x with wx | qx | tx
    · rcases y with wy | qy | ty
      · simp only [packPoints, pack4] at h
        rcases hr : packPoints rest with e | bs
        · rw [hr] at h
          cases h
          obtain ⟨q, hq, hnn⟩ := ih hr
          exact ⟨q, List.mem_cons_of_mem _ hq, hnn⟩
        · rw [hr] at h
          cases h
      · simp [packPoints, pack4, pointPackErr] at h
      · exact ⟨(.val wx, .nonNum ty), by simp, Or.inr rfl⟩
    · simp [packPoints, pack4, pointPackErr] at h
    · exact ⟨(.nonNum tx, y), by simp, Or.inl rfl⟩

/-- C2 counterexample: at `P = [(nan, 0.0)]` (NaN being the quiet-NaN pattern
`0x7FC00000` CPython produces), `bytes_to_point_set(point_set_to_bytes(P))`
returns the bit-identical list, but Python `==` between it and `P` is `False`
because `nan != nan`, refuting the round-trip claim for special values. -/
theorem C2_roundtrip_nan_counterexample :
    encodePts [((0x7FC00000, 0) : Pt)] =
      .ok [0, 0, 0, 1, 0x7F, 0xC0, 0, 0, 0, 0, 0, 0] ∧
    bytes_to_point_set [0, 0, 0, 1, 0x7F, 0xC0, 0, 0, 0, 0, 0, 0] =
      .ok [((0x7FC00000, 0) : Pt)] ∧
    pyEqPts [((0x7FC00000, 0) : Pt)] [((0x7FC00000, 0) : Pt)] = false := by
  refine ⟨by decide, by decide, by decide⟩

/-- C2 (amended): for every float32-pattern point sequence (count fitting the
32-bit header), encoding then decoding returns the bit-identical sequence —
NaN patterns included — and the decoded list is Python-`==` to the input
whenever no coordinate is NaN; the empty sequence encodes to exactly the four
zero bytes and decodes back to the empty sequence. -/
theorem C2_pointset_roundtrip :
    (∀ ps : List Pt, ValidPts ps → ps.length < 2 ^ 32 →
      encodePts ps = .ok (bytesOfW32 ps.length ++ ptsBody ps) ∧
      bytes_to_point_set (bytesOfW32 ps.length ++ ptsBody ps) = .ok ps ∧
      (NoNaN ps → pyEqPts ps ps = true)) ∧
    encodePts [] = .ok [0, 0, 0, 0] ∧
    bytes_to_point_set [0, 0, 0, 0] = .ok [] := by
  refine ⟨fun ps hv hl => ⟨encodePts_eq ps hl, ?_, fun hn => pyEqPts_refl ps hn⟩,
    by decide, by decide⟩
  have h := decode_encodePts ps [] hv hl
  simpa using h

/-- C2 witness: a one-point list round-trips bit-exactly and under Python `==`. -/
theorem C2_pointset_roundtrip_witness :
    encodePts [((0x3F800000, 0) : Pt)] =
      .ok (bytesOfW32 ([((0x3F800000, 0) : Pt)]).length ++ ptsBody [((0x3F800000, 0) : Pt)]) ∧
    bytes_to_point_set
        (bytesOfW32 ([((0x3F800000, 0) : Pt)]).length ++ ptsBody [((0x3F800000, 0) : Pt)]) =
      .ok [((0x3F800000, 0) : Pt)] ∧
    (NoNaN [((0x3F800000, 0) : Pt)] → pyEqPts [((0x3F800000, 0) : Pt)] [((0x3F800000, 0) : Pt)] = true) :=
  C2_pointset_roundtrip.1 [((0x3F800000, 0) : Pt)] (by decide) (by decide)

/-- C3 counterexample: at `P = [(nan, 0.0)]`, `T = []` (NaN being the
quiet-NaN pattern `0x7FC00000` CPython produces), the mesh encodes and
decodes back bit-identically, but Python `==` between the decoded points and
`P` is `False` because `nan != nan`, refuting the claimed `== (P, T)`
round trip — the same way C2's special-value clause fails. -/
theorem C3_roundtrip_nan_counterexample :
    encodeMeshI [((0x7FC00000, 0) : Pt)] [] =
      .ok [0, 0, 0, 1, 0x7F, 0xC0, 0, 0, 0, 0, 0, 0, 0, 0, 0, 0] ∧
    bytes_to_triangles [0, 0, 0, 1, 0x7F, 0xC0, 0, 0, 0, 0, 0, 0, 0, 0, 0, 0] =
      .ok ([((0x7FC00000, 0) : Pt)], []) ∧
    pyEqPts [((0x7FC00000, 0) : Pt)] [((0x7FC00000, 0) : Pt)] = false := by
  refine ⟨by decide, by decide, by decide⟩

/-- C3 (amended): for every float32-pattern point sequence (counts fitting
the 32-bit headers) and every int triangle list whose indices all lie in
`[0, len(points) - 1]`, the mesh round-trip is bit-exact:
`bytes_to_triangles(triangles_to_bytes(P, T))` returns `(P, T)` verbatim —
NaN patterns included — and the decoded points are Python-`==` to the
originals whenever no coordinate is NaN. -/
theorem C3_mesh_roundtrip :
    ∀ (ps : List Pt) (ts : List TriangleI),
      ValidPts ps → ps.length < 2 ^ 32 → ts.length < 2 ^ 32 →
      (∀ t ∈ ts, TriInBounds ((ps.length : Int) - 1) t) →
      ∃ bs, encodeMeshI ps ts = .ok bs ∧
        bytes_to_triangles bs = .ok (ps, ts) ∧
        (NoNaN ps → pyEqPts ps ps = true) := by
  intro ps ts hv hp ht hb
  refine ⟨_, encodeMeshI_eq ps ts hp ht hb, ?_, fun hn => pyEqPts_refl ps hn⟩
  exact decodeMesh_concat ps ts hv hp ht (validTris_of_inBounds ps ts hp hb)

/-- C3 witness: the unit-square mesh with its two fan triangles round-trips. -/
theorem C3_mesh_roundtrip_witness :
    ∃ bs,
      encodeMeshI [((0, 0) : Pt), (0x3F800000, 0), (0x3F800000, 0x3F800000), (0, 0x3F800000)]
        [(0, 1, 2), (0, 2, 3)] = .ok bs ∧
      bytes_to_triangles bs =
        .ok ([((0, 0) : Pt), (0x3F800000, 0), (0x3F800000, 0x3F800000), (0, 0x3F800000)],
          [(0, 1, 2), (0, 2, 3)]) ∧
      (NoNaN [((0, 0) : Pt), (0x3F800000, 0), (0x3F800000, 0x3F800000), (0, 0x3F800000)] →
        pyEqPts [((0, 0) : Pt), (0x3F800000, 0), (0x3F800000, 0x3F800000), (0, 0x3F800000)]
          [((0, 0) : Pt), (0x3F800000, 0), (0x3F800000, 0x3F800000), (0, 0x3F800000)] = true) :=
  C3_mesh_roundtrip _ _ (by decide) (by decide) (by decide) (by decide)

/-- C6: `bytes_to_point_set` raises Serialization errors exactly for buffers
shorter than the 4-byte header or shorter than `4 + count*8`; with the
declared payload available it succeeds, and extra trailing bytes beyond an
exact payload leave the decoded result unchanged.  `bytes_to_triangles`, by
contrast, succeeds iff the total length is exactly
`points_end + 4 + tri_count*12`, and all its failures are Serialization
errors. -/
theorem C6_decode_length_policy :
    (∀ d : List Nat, d.length < 4 →
      bytes_to_point_set d = .error (.serialization "Payload too short to contain header")) ∧
    (∀ d : List Nat, 4 ≤ d.length → d.length < 4 + readW32 d * 8 →
      bytes_to_point_set d = .error (.serialization "Payload smaller than expected")) ∧
    (∀ d : List Nat, 4 ≤ d.length → 4 + readW32 d * 8 ≤ d.length →
      bytes_to_point_set d = .ok (readPoints (readW32 d) (d.drop 4))) ∧
    (∀ d t : List Nat, 4 ≤ d.length → d.length = 4 + readW32 d * 8 →
      bytes_to_point_set (d ++ t) = bytes_to_point_set d) ∧
    (∀ d : List Nat, (∃ pr, bytes_to_triangles d = .ok pr) ↔
      (4 ≤ d.length ∧ 4 + readW32 d * 8 ≤ d.length ∧
       4 + readW32 d * 8 + 4 ≤ d.length ∧
       d.length = 4 + readW32 d * 8 + 4 + readW32 (d.drop (4 + readW32 d * 8)) * 12)) ∧
    (∀ (d : List Nat) (e : PyError), bytes_to_triangles d = .error e →
      e.isSerialization) := by
  refine ⟨?_, ?_, ?_, ?_, bytes_to_triangles_ok_iff, bytes_to_triangles_error_isSer⟩
  · intro d h
    simp only [bytes_to_point_set]
    rw [if_pos h]
  · intro d h4 hsz
    simp only [bytes_to_point_set]
    rw [if_neg (by omega), if_pos hsz]
  · intro d h4 hsz
    exact bytes_to_point_set_ok d h4 hsz
  · intro d t h4 hexact
    have hr : readW32 (d ++ t) = readW32 d := readW32_append d t h4
    have hlen : (d ++ t).length = d.length + t.length := List.length_append d t
    rw [bytes_to_point_set_ok d h4 (by omega),
      bytes_to_point_set_ok (d ++ t) (by omega) (by omega)]
    rw [hr, drop_append_le d t 4 (by omega),
      readPoints_prefix _ _ _ (by simp only [List.length_drop]; omega)]

/-- C6 witness: a 2-byte buffer and a truncated one-point buffer fail; a
one-point buffer with a trailing byte decodes like the exact buffer. -/
theorem C6_decode_length_policy_witness :
    bytes_to_point_set [1, 2] =
      .error (.serialization "Payload too short to contain header") ∧
    bytes_to_point_set [0, 0, 0, 2, 9] =
      .error (.serialization "Payload smaller than expected") ∧
    bytes_to_point_set ([0, 0, 0, 1, 1, 2, 3, 4, 5, 6, 7, 8] ++ [99]) =
      bytes_to_point_set [0, 0, 0, 1, 1, 2, 3, 4, 5, 6, 7, 8] :=
  ⟨C6_decode_length_policy.1 [1, 2] (by decide),
   C6_decode_length_policy.2.1 [0, 0, 0, 2, 9] (by decide) (by decide),
   C6_decode_length_policy.2.2.2.1 [0, 0, 0, 1, 1, 2, 3, 4, 5, 6, 7, 8] [99]
     (by decide) (by decide)⟩

/-- C7: `triangles_to_bytes` (on encodable points) raises the Serialization
error `"Triangle index out of bounds"` for every int triangle list containing
an index outside `[0, len(points) - 1]` — negative values and `len(points)`
alike, the check comparing against both bounds uniformly — and any triangle
list containing a non-numeric index also raises a Serialization error. -/
theorem C7_index_bounds :
    (∀ (ps : List Pt) (ts : List TriangleI),
      ps.length < 2 ^ 32 →
      ¬ (∀ t ∈ ts, TriInBounds ((ps.length : Int) - 1) t) →
      triangles_to_bytes (ps.map injPt) (ts.map injTri) =
        .error (.serialization "Triangle index out of bounds")) ∧
    (∀ (ps : List Pt) (ts : List PyTri),
      ps.length < 2 ^ 32 → HasNonNum ts →
      ∃ m, triangles_to_bytes (ps.map injPt) ts = .error (.serialization m)) := by
  constructor
  · intro ps ts hl hb
    have henc : point_set_to_bytes (ps.map injPt) =
        .ok (bytesOfW32 ps.length ++ ptsBody ps) := encodePts_eq ps hl
    simp only [triangles_to_bytes, henc, List.length_map]
    rw [scanTris_inj_oob _ _ hb]
  · intro ps ts hl hnn
    have henc : point_set_to_bytes (ps.map injPt) =
        .ok (bytesOfW32 ps.length ++ ptsBody ps) := encodePts_eq ps hl
    simp only [triangles_to_bytes, henc, List.length_map]
    rcases hscan : scanTris ((ps.length : Int) - 1) ts with f | u
    · cases f
      · exact ⟨_, rfl⟩
      · exact ⟨_, rfl⟩
    · cases u
      exact absurd hnn (scanTris_ok_no_nonNum _ _ hscan)

/-- C7 witness: with a single point, index `1 = len(points)` and index `-1`
both give the out-of-bounds message, and a non-numeric index gives a
Serialization error. -/
theorem C7_index_bounds_witness :
    triangles_to_bytes ([((0, 0) : Pt)].map injPt) ([((0, 0, 1) : TriangleI)].map injTri) =
      .error (.serialization "Triangle index out of bounds") ∧
    triangles_to_bytes ([((0, 0) : Pt)].map injPt) ([((-1, 0, 0) : TriangleI)].map injTri) =
      .error (.serialization "Triangle index out of bounds") ∧
    ∃ m, triangles_to_bytes ([((0, 0) : Pt)].map injPt) [(.nonNum 0, .int 0, .int 0)] =
      .error (.serialization m) :=
  ⟨C7_index_bounds.1 [((0, 0) : Pt)] [((0, 0, 1) : TriangleI)] (by decide) (by decide),
   C7_index_bounds.1 [((0, 0) : Pt)] [((-1, 0, 0) : TriangleI)] (by decide) (by decide),
   C7_index_bounds.2 [((0, 0) : Pt)] [(.nonNum 0, .int 0, .int 0)] (by decide)
     ⟨(.nonNum 0, .int 0, .int 0), by decide, by decide⟩⟩

/-- C8 counterexample: a finite coordinate of magnitude beyond the float32
range (such as `1e300`) is *not* encoded as an IEEE-754 bit pattern: CPython
raises `OverflowError("float too large to pack with f format")`, which the
source's `except struct.error` does not catch, so `point_set_to_bytes` raises —
and not even a Serialization error. -/
theorem C8_encode_magnitude_counterexample :
    point_set_to_bytes [((.big (10 ^ 300 : ℚ)), .val 0)] =
      .error (.overflow "float too large to pack with f format") := by
  decide

/-- C8 (amended): `point_set_to_bytes` raises a Serialization error only for
type-level packing failures (a non-numeric coordinate); every sequence of
exactly-representable float32 values — infinities and NaNs included — is
encoded without error, while a finite coordinate beyond float32 range raises
an uncaught OverflowError instead of being encoded. -/
theorem C8_encode_specials :
    (∀ ps : List PyPoint, ps.length < 2 ^ 32 →
      (∀ p ∈ ps, p.1.isVal = true ∧ p.2.isVal = true) →
      ∃ bs, point_set_to_bytes ps = .ok bs) ∧
    (∀ (ps : List PyPoint) (m : String), ps.length < 2 ^ 32 →
      point_set_to_bytes ps = .error (.serialization m) →
      ∃ p ∈ ps, p.1.isNonNum = true ∨ p.2.isNonNum = true) ∧
    (∀ q : ℚ, point_set_to_bytes [((.big q), .val 0)] =
      .error (.overflow "float too large to pack with f format")) := by
  refine ⟨?_, ?_, fun q => rfl⟩
  · intro ps hl hv
    obtain ⟨bs, hbs⟩ := packPoints_allVal ps hv
    exact ⟨_, by simp only [point_set_to_bytes, hbs]; rw [if_neg (by omega)]⟩
  · intro ps m hl herr
    simp only [point_set_to_bytes] at herr
    rw [if_neg (by omega)] at herr
    rcases hpk : packPoints ps with e | bs
    · rw [hpk] at herr
      cases herr
      exact packPoints_ser_nonNum ps m hpk
    · rw [hpk] at herr
      cases herr

/-- C8 witness: a point made of `+inf` and NaN encodes without error. -/
theorem C8_encode_specials_witness :
    ∃ bs, point_set_to_bytes [((.val 0x7F800000), .val 0x7FC00000)] = .ok bs :=
  C8_encode_specials.1 [((.val 0x7F800000), .val 0x7FC00000)] (by decide) (by decide)

/-- C10: `bytes_to_triangles` performs no validation of decoded triangle
indices against the decoded point count: every exact-length buffer decodes to
its content verbatim, whatever the index values (up to the uint32 wire range),
while the same out-of-range mesh is rejected by the encoder — the index
invariant is enforced on encode only. -/
theorem C10_decode_skips_index_validation :
    (∀ (ps : List Pt) (ts : List TriangleI),
      ValidPts ps → ps.length < 2 ^ 32 → ts.length < 2 ^ 32 → ValidTris ts →
      bytes_to_triangles
        (bytesOfW32 ps.length ++ ptsBody ps ++ bytesOfW32 ts.length ++ triBody ts) =
        .ok (ps, ts)) ∧
    encodeMeshI [((9, 10) : Pt)] [(5, 6, 7)] =
      .error (.serialization "Triangle index out of bounds") := by
  refine ⟨fun ps ts hv hp ht hvt => decodeMesh_concat ps ts hv hp ht hvt, by decide⟩

/-- C10 witness: a buffer declaring one point and one triangle `(5, 6, 7)` —
all indices ≥ the point count — decodes successfully and verbatim. -/
theorem C10_decode_skips_index_validation_witness :
    bytes_to_triangles
      (bytesOfW32 ([((9, 10) : Pt)]).length ++ ptsBody [((9, 10) : Pt)] ++
        bytesOfW32 ([((5, 6, 7) : TriangleI)]).length ++ triBody [((5, 6, 7) : TriangleI)]) =
      .ok ([((9, 10) : Pt)], [((5, 6, 7) : TriangleI)]) :=
  C10_decode_skips_index_validation.1 [((9, 10) : Pt)] [((5, 6, 7) : TriangleI)]
    (by decide) (by decide) (by decide) (by decide)

end Triangulator
